import Mathlib

/-!
Verification development for the PGD gateway (FastAPI + LLM provider layer).

The definitions below are a shallow embedding of `src/main.py` and
`src/ai_service.py`: strings are `List Char` / `String`, Python regex
substitutions are modelled by explicit scanners (fuel-based structural
recursion so that everything computes), the in-memory session map is a
function `String → Option SessionEntry`, time is `Int` seconds, and the
network call of a provider is an oracle parameter.
-/

/-! ### Character classes -/

/-- Python regex `\s` / `str.strip` whitespace, ASCII range. -/
def isSpaceChar (c : Char) : Bool :=
  c = ' ' || c = '\t' || c = '\n' || c = '\r' || c = '\x0b' || c = '\x0c'

/-- Characters removed by `safe_json_string`'s regex `[\x00-\x1F\x7F-\x9F]`. -/
def isJsonControl (c : Char) : Bool :=
  c.toNat ≤ 0x1F || (0x7F ≤ c.toNat && c.toNat ≤ 0x9F)

/-- Characters removed by `safe_display_text`'s regex
`[\x00-\x08\x0B\x0C\x0E-\x1F\x7F-\x9F]`. -/
def isDisplayControl (c : Char) : Bool :=
  c.toNat ≤ 0x08 || c.toNat = 0x0B || c.toNat = 0x0C ||
  (0x0E ≤ c.toNat && c.toNat ≤ 0x1F) || (0x7F ≤ c.toNat && c.toNat ≤ 0x9F)

/-! ### Elementary string rewriting (Python `str.replace`) -/

/-- `s.replace(t, rep)` for a single-character pattern `t`. -/
def replaceChar (t : Char) (rep : List Char) : List Char → List Char
  | [] => []
  | c :: rest => (if c = t then rep else [c]) ++ replaceChar t rep rest

/-- `text.replace("\\n", "\n")` — first step of `_clean_markdown`. -/
def unescapeNewlines : List Char → List Char
  | [] => []
  | [c] => [c]
  | c1 :: c2 :: rest =>
    if c1 = '\\' ∧ c2 = 'n' then '\n' :: unescapeNewlines rest
    else c1 :: unescapeNewlines (c2 :: rest)

/-- `text.replace("\\", "")` — second step of `_clean_markdown`. -/
def removeBackslashes : List Char → List Char
  | [] => []
  | c :: rest => (if c = '\\' then [] else [c]) ++ removeBackslashes rest

/-- `s.replace("\r\n", "\n")` used by `safe_display_text`. -/
def crlfToLf : List Char → List Char
  | [] => []
  | [c] => [c]
  | c1 :: c2 :: rest =>
    if c1 = '\r' ∧ c2 = '\n' then '\n' :: crlfToLf rest
    else c1 :: crlfToLf (c2 :: rest)

/-! ### Regex scanners of `_clean_markdown`

Each of Python's `re.sub` calls is modelled by a scanner.  The scanners
consume at least one character per step, so running them with fuel equal
to the input length computes the full substitution; fuel keeps the
recursion structural so results evaluate inside `decide`/`rfl`. -/

/-- Lazy search for the closing delimiter of `\*\*(.+?)\*\*`-style patterns:
returns the (non-empty, newline-free) content before the first occurrence of
`closer`, and the remainder after it. -/
def findClose (closer : List Char) : List Char → Option (List Char × List Char)
  | [] => none
  | c :: rest =>
    if c = '\n' then none
    else if closer.isPrefixOf rest then some ([c], rest.drop closer.length)
    else
      match findClose closer rest with
      | some pr => some (c :: pr.1, pr.2)
      | none => none

/-- One `re.sub` pass for a paired-delimiter pattern (`**…**`, `*…*`,
`` `…` ``), replacing each leftmost non-overlapping match by its content. -/
def delimGoF (opener closer : List Char) : Nat → List Char → List Char
  | 0, s => s
  | _ + 1, [] => []
  | f + 1, c :: rest =>
    if opener.isPrefixOf (c :: rest) then
      match findClose closer ((c :: rest).drop opener.length) with
      | some pr => pr.1 ++ delimGoF opener closer f pr.2
      | none => c :: delimGoF opener closer f rest
    else c :: delimGoF opener closer f rest

/-- Attempted match of `^#{1,6}\s+` at a line start: a run of 1–6 `#`
followed by at least one whitespace character (greedily consumed, newlines
included).  Returns the remainder and whether it begins at a line start. -/
def tryHeading (s : List Char) : Option (List Char × Bool) :=
  let hashes := s.takeWhile (fun c => c = '#')
  let t := s.dropWhile (fun c => c = '#')
  if hashes.length = 0 ∨ 6 < hashes.length then none
  else
    match t.head? with
    | some c =>
      if isSpaceChar c then
        some (t.dropWhile isSpaceChar,
              (t.takeWhile isSpaceChar).getLast? = some '\n')
      else none
    | none => none

/-- `re.sub(r"^#{1,6}\s+", "", text, flags=re.MULTILINE)`. -/
def headingGoF : Nat → Bool → List Char → List Char
  | 0, _, s => s
  | _ + 1, _, [] => []
  | f + 1, atStart, c :: rest =>
    if atStart then
      match tryHeading (c :: rest) with
      | some pr => headingGoF f pr.2 pr.1
      | none => c :: headingGoF f (c = '\n') rest
    else c :: headingGoF f (c = '\n') rest

/-- Attempted match of `^[ \t]*[-•*]\s+` at a line start. -/
def tryBullet (s : List Char) : Option (List Char × Bool) :=
  let t := s.dropWhile (fun c => c = ' ' || c = '\t')
  match t with
  | b :: rest =>
    if b = '-' ∨ b = '•' ∨ b = '*' then
      match rest.head? with
      | some c =>
        if isSpaceChar c then
          some (rest.dropWhile isSpaceChar,
                (rest.takeWhile isSpaceChar).getLast? = some '\n')
        else none
      | none => none
    else none
  | [] => none

/-- `re.sub(r"^[ \t]*[-•*]\s+", "", text, flags=re.MULTILINE)`. -/
def bulletGoF : Nat → Bool → List Char → List Char
  | 0, _, s => s
  | _ + 1, _, [] => []
  | f + 1, atStart, c :: rest =>
    if atStart then
      match tryBullet (c :: rest) with
      | some pr => bulletGoF f pr.2 pr.1
      | none => c :: bulletGoF f (c = '\n') rest
    else c :: bulletGoF f (c = '\n') rest

/-- `re.sub(r"\n{3,}", "\n\n", s)`: every maximal run of ≥ 3 newlines
becomes exactly two. -/
def collapseGoF : Nat → List Char → List Char
  | 0, s => s
  | _ + 1, [] => []
  | f + 1, c :: rest =>
    if c = '\n' ∧ 2 ≤ (rest.takeWhile (fun x => x = '\n')).length then
      '\n' :: '\n' :: collapseGoF f (rest.dropWhile (fun x => x = '\n'))
    else c :: collapseGoF f rest

/-- Python `str.strip()` (ASCII whitespace). -/
def stripChars (s : List Char) : List Char :=
  ((s.dropWhile isSpaceChar).reverse.dropWhile isSpaceChar).reverse

/-- `ModelProcessor._clean_markdown` from `src/ai_service.py`. -/
def cleanMarkdown (s : List Char) : List Char :=
  let t1 := unescapeNewlines s
  let t2 := removeBackslashes t1
  let t3 := headingGoF t2.length true t2
  let t4 := delimGoF ['*', '*'] ['*', '*'] t3.length t3
  let t5 := delimGoF ['*'] ['*'] t4.length t4
  let t6 := delimGoF ['`'] ['`'] t5.length t5
  let t7 := bulletGoF t6.length true t6
  let t8 := collapseGoF t7.length t7
  stripChars t8

/-- `_clean_markdown` on `String`. -/
def cleanMarkdownStr (s : String) : String := ⟨cleanMarkdown s.data⟩

/-- Python `str.strip()` on `String`. -/
def stripStr (s : String) : String := ⟨stripChars s.data⟩

/-- Python slicing `s[:n]` on `String`. -/
def takeChars (s : String) (n : Nat) : String := ⟨s.data.take n⟩

/-! ### `safe_json_string` and `safe_display_text` (`src/main.py`) -/

/-- `safe_json_string(text, max_len)`; `none` models Python `None`. -/
def safeJsonString (text : Option (List Char)) (maxLen : Nat) : List Char :=
  match text with
  | none => []
  | some t =>
    let s1 := t.filter (fun c => !isJsonControl c)
    let s2 := replaceChar '\\' ['\\', '\\'] s1
    let s3 := replaceChar '"' ['\\', '"'] s2
    let s4 := replaceChar '\r' [] s3
    let s5 := replaceChar '\n' ['\\', 'n'] s4
    s5.take maxLen

/-- `safe_display_text(text, max_len)`. -/
def safeDisplayText (t : List Char) (maxLen : Nat) : List Char :=
  let s1 := t.filter (fun c => !isDisplayControl c)
  let s2 := crlfToLf s1
  let s3 := replaceChar '\r' ['\n'] s2
  let s4 := collapseGoF s3.length s3
  s4.take maxLen

/-- `safe_display_text` on `String` with the default `max_len = 50000`. -/
def safeDisplayTextStr (s : String) : String := ⟨safeDisplayText s.data 50000⟩

/-! ### Provider configuration (`LLMConfig` in `src/ai_service.py`) -/

/-- The four supported backend families (`LLM_PROVIDER`). -/
inductive Provider
  | openai
  | perplexity
  | gemini
  | groq
deriving DecidableEq

/-- Message roles of a chat-style completion request. -/
inductive Role
  | system
  | assistant
  | user
deriving DecidableEq

/-- Shape of an outbound request: message list (openai / perplexity / groq)
or a single concatenated prompt (gemini `generate_content`). -/
inductive RequestBody
  | messageList (msgs : List (Role × String))
  | singlePrompt (prompt : String)
deriving DecidableEq

/-- The parameters of one outbound completion call. -/
structure OutboundRequest where
  model : String
  body : RequestBody
  temperature : Option ℚ
  maxTokens : Option Nat
deriving DecidableEq

/-- `LLMConfig` after `__init__` has resolved everything. -/
structure LLMConfig where
  provider : Provider
  model_name : String
  supports_temperature : Bool
  temperature : Option ℚ
  max_completion_tokens : Nat
deriving DecidableEq

/-- The environment variables `LLMConfig.__init__` reads. -/
structure Env where
  OPENAI_MODEL : Option String
  OPENAI_TEMPERATURE : Option ℚ
  OPENAI_MAX_COMPLETION_TOKENS : Option Nat
  PERPLEXITY_MODEL : Option String
  GEMINI_MODEL : Option String
  GROQ_MODEL : Option String

/-- Python `x or default` for the token counts (`0` is falsy). -/
def orDefaultNat (x : Option Nat) (dflt : Nat) : Nat :=
  match x with
  | some n => if n = 0 then dflt else n
  | none => dflt

/-- `LLMConfig.__init__(provider, model_name, temperature,
max_completion_tokens)` reading defaults from `env`. -/
def mkLLMConfig (p : Provider) (model_name : Option String)
    (temperature : Option ℚ) (max_completion_tokens : Option Nat)
    (env : Env) : LLMConfig :=
  match p with
  | .openai =>
    let m := model_name.getD (env.OPENAI_MODEL.getD "gpt-4o")
    let mt := max_completion_tokens.getD (env.OPENAI_MAX_COMPLETION_TOKENS.getD 4000)
    if ("o1".data <:+: m.data) ∨ ("o3".data <:+: m.data) then
      { provider := p, model_name := m, supports_temperature := false,
        temperature := none, max_completion_tokens := mt }
    else
      { provider := p, model_name := m, supports_temperature := true,
        temperature := some (temperature.getD (env.OPENAI_TEMPERATURE.getD 0.7)),
        max_completion_tokens := mt }
  | .perplexity =>
    { provider := p, model_name := model_name.getD (env.PERPLEXITY_MODEL.getD "sonar-pro"),
      supports_temperature := true, temperature := some (temperature.getD 0.7),
      max_completion_tokens := orDefaultNat max_completion_tokens 8000 }
  | .gemini =>
    { provider := p, model_name := model_name.getD (env.GEMINI_MODEL.getD "gemini-2.5-pro"),
      supports_temperature := true, temperature := some (temperature.getD 0.6),
      max_completion_tokens := orDefaultNat max_completion_tokens 8000 }
  | .groq =>
    { provider := p, model_name := model_name.getD (env.GROQ_MODEL.getD "llama-3.3-70b-versatile"),
      supports_temperature := true, temperature := some (temperature.getD 0.6),
      max_completion_tokens := orDefaultNat max_completion_tokens 8000 }

/-- `LLMConfig.maybe_temperature_arg`: present only when the flag is set
and a value exists. -/
def LLMConfig.maybeTemperatureArg (cfg : LLMConfig) : Option ℚ :=
  if cfg.supports_temperature && cfg.temperature.isSome then cfg.temperature else none

/-! ### Prompts -/

/-- The hard-coded default of `load_system_prompt()` (used when
`system_prompt.txt` is absent). -/
def defaultSystemPrompt : String :=
"Ты — старший психолог-консультант, эксперт по профориентации и профессиональный коуч.
Твоя задача — проанализировать входные данные психологической диагностики (Матрицы) и составить для клиента глубокий, вдохновляющий и практически применимый путеводитель по жизни.

ВХОДНЫЕ ДАННЫЕ:
Тебе будет подан текстовый файл с описанием различных точек и периодов из PGD-матрицы.

ГЛАВНОЕ ТРЕБОВАНИЕ (КРИТИЧЕСКИ ВАЖНО):
1. В итоговом тексте ЗАПРЕЩЕНО использовать цифры арканов, номера точек (Точка А, Б, Г и т.д.) или технические термины расчёта.
2. Клиент не должен видеть кухню расчетов. Он должен видеть себя и свою судьбу.
3. Обращайся к пользователю по имени (найди его в начале файла).
4. Стиль: поддерживающий, профессиональный, терапевтический, но при этом четкий и деловой в вопросах карьеры.

ПРАВИЛА ФОРМАТИРОВАНИЯ (ОБЯЗАТЕЛЬНО):
- Пиши ТОЛЬКО чистым текстом с абзацами
- ЗАПРЕЩЕНО использовать markdown-символы: # ## ### ** __ * _ ~~ ``` `
- ЗАПРЕЩЕНО использовать списки с дефисами или номерами
- ЗАПРЕЩЕНО использовать обратный слэш и экранирование
- Разделяй блоки двумя переносами строки (пустая строка между абзацами)
- Выделение делай через ЗАГЛАВНЫЕ слова в начале фразы

СТРУКТУРА ОТЧЕТА (6 обязательных блоков):
БЛОК 1. Вступление (1 абзац)
БЛОК 2. Твой фундамент (4-5 абзацев)
БЛОК 3. Векторы роста (4-5 абзацев)
БЛОК 4. Реализация и карьера (4-5 абзацев)
БЛОК 5. Стратегия жизни по периодам (4-5 абзацев)
БЛОК 6. Рекомендации по счастью (4-5 абзацев)
ЗАВЕРШЕНИЕ (1 абзац)

ТРЕБОВАНИЯ:
- Тон: тёплый, уважительный, без излишней эзотерики
- Длина: 3000-3500 слов
- Абзацы: 5-7 предложений каждый
- БЕЗ технических символов и markdown-разметки"

/-- The fixed conversational instruction of `chat_with_report`. -/
def chatSystemPrompt : String :=
"Ты — тот же психолог-консультант, который составил этот отчет. Отвечай на вопросы клиента КРАТКО (1-3 абзаца), тепло и профессионально. Основывай свои советы только на данных из предоставленного отчета. Соблюдай строгий запрет на markdown-разметку (никаких **, #, списков)."

/-! ### Payload serialization (`get_llm_response` prompt assembly) -/

/-- One section of the analysis payload: flat value or nested mapping. -/
inductive BlockValue
  | flat (s : String)
  | nested (kvs : List (String × String))

/-- The `user_info` dict: optional name / dob / gender strings. -/
structure UserInfo where
  name : Option String
  dob : Option String
  gender : Option String

/-- `user_info.get("name", "Клиент")`. -/
def userName (u : UserInfo) : String := u.name.getD "Клиент"

/-- Python `str.upper()` for ASCII letters and the Cyrillic range used here. -/
def pyUpperChar (c : Char) : Char :=
  if 'a' ≤ c ∧ c ≤ 'z' then Char.ofNat (c.toNat - 32)
  else if 'а' ≤ c ∧ c ≤ 'я' then Char.ofNat (c.toNat - 32)
  else if c = 'ё' then 'Ё'
  else c

/-- `str.upper()` on `String`. -/
def pyUpper (s : String) : String := ⟨s.data.map pyUpperChar⟩

/-- Lines contributed by one payload section. -/
def blockLines : String × BlockValue → List String
  | (bn, .nested kvs) =>
    ("\n📌 " ++ pyUpper bn ++ ":") :: kvs.map (fun kv => "  • " ++ kv.1 ++ ": " ++ kv.2)
  | (bn, .flat v) => ["\n📌 " ++ pyUpper bn ++ ":", "  " ++ v]

/-- Python truthiness of an optional string field. -/
def optLine (pre : String) (v : Option String) : List String :=
  match v with
  | some s => if s = "" then [] else [pre ++ s]
  | none => []

/-- The `pgd_text` assembled by `get_llm_response`. -/
def buildPgdText (pgd : List (String × BlockValue)) (u : UserInfo) : String :=
  String.intercalate "\n"
    ((["Имя: " ++ userName u]
      ++ optLine "Дата рождения: " u.dob
      ++ optLine "Пол: " u.gender
      ++ ["\nPGD-МАТРИЦА:"])
      ++ (pgd.map blockLines).flatten)

/-! ### Outbound request construction -/

/-- The request of the report-generation call (`_call_openai` /
`_call_perplexity` / `_call_groq` / `_call_gemini`). -/
def reportRequest (cfg : LLMConfig) (sysPrompt pgdText : String) : OutboundRequest :=
  match cfg.provider with
  | .gemini =>
    { model := cfg.model_name,
      body := .singlePrompt (sysPrompt ++ "\n\n" ++ pgdText),
      temperature := cfg.temperature,
      maxTokens := some cfg.max_completion_tokens }
  | _ =>
    { model := cfg.model_name,
      body := .messageList [(.system, sysPrompt), (.user, pgdText)],
      temperature := cfg.maybeTemperatureArg,
      maxTokens := some cfg.max_completion_tokens }

/-- The request of the `chat_with_report` call.  For gemini the code calls
`generate_content` with no `generation_config`: no temperature and no
output-token bound. -/
def chatRequest (cfg : LLMConfig) (context question : String) : OutboundRequest :=
  match cfg.provider with
  | .gemini =>
    { model := cfg.model_name,
      body := .singlePrompt (chatSystemPrompt ++ "\n\nКОНТЕКСТ ОТЧЕТА:\n" ++ context
        ++ "\n\nВОПРОС КЛИЕНТА: " ++ question),
      temperature := none,
      maxTokens := none }
  | _ =>
    { model := cfg.model_name,
      body := .messageList [(.system, chatSystemPrompt),
        (.assistant, "Вот твой психологический отчет: " ++ context),
        (.user, question)],
      temperature := cfg.maybeTemperatureArg,
      maxTokens := some 1000 }

/-- Whether a request carries `sys` as its system instruction. -/
def usesSystemInstruction (r : OutboundRequest) (sys : String) : Prop :=
  match r.body with
  | .messageList msgs => msgs.head? = some (Role.system, sys)
  | .singlePrompt p => sys.data.isPrefixOf p.data = true

/-! ### `chat_with_report` and `get_llm_response` -/

/-- `chat_with_report(report_text, question)`: single attempt, apology on
failure.  The network is the `oracle`; the second component counts the
outbound attempts made. -/
def chatWithReport (cfg : LLMConfig) (client : Bool) (reportText question : String)
    (oracle : OutboundRequest → Except Unit String) : String × Nat :=
  if client = false then ("Ошибка: Модель не инициализирована.", 0)
  else
    let context := takeChars reportText 15000
    let req := chatRequest cfg context question
    match oracle req with
    | .ok ans => (cleanMarkdownStr (stripStr ans), 1)
    | .error _ => ("Извините, возникла техническая сложность. Попробуйте задать вопрос иначе.", 1)

/-- `_fallback_response(pgd_data, user_info)` — ignores the payload. -/
def fallbackResponse (u : UserInfo) : String :=
  "Портрет для " ++ userName u ++ " временно недоступен (LLM не отвечает)."

/-- The retry loop of `_call_openai`: up to `n` more attempts starting at
index `i`, `time.sleep(2)` between attempts.  Returns (result, attempts
made, sleep durations). -/
def openaiRetry (oracle : Nat → OutboundRequest → Except Unit String)
    (req : OutboundRequest) : Nat → Nat → Except Unit String × Nat × List Nat
  | _, 0 => (.error (), 0, [])
  | i, n + 1 =>
    match oracle i req with
    | .ok s => (.ok (stripStr s), 1, [])
    | .error e =>
      if n = 0 then (.error e, 1, [])
      else
        let r := openaiRetry oracle req (i + 1) n
        (r.1, r.2.1 + 1, 2 :: r.2.2)

/-- Dispatch through `call_methods[self.provider]`: only `_call_openai`
loops (3 attempts); the other three backends make a single call. -/
def callProviderReport (cfg : LLMConfig) (sysPrompt pgdText : String)
    (oracle : Nat → OutboundRequest → Except Unit String) :
    Except Unit String × Nat × List Nat :=
  let req := reportRequest cfg sysPrompt pgdText
  match cfg.provider with
  | .openai => openaiRetry oracle req 0 3
  | _ =>
    match oracle 0 req with
    | .ok s => (.ok (stripStr s), 1, [])
    | .error e => (.error e, 1, [])

/-- Outcome of `get_llm_response`: the returned text, whether the local
fallback was used, and the attempt/sleep trace of the provider calls. -/
structure GenOutcome where
  text : String
  degraded : Bool
  attempts : Nat
  sleeps : List Nat
deriving DecidableEq

/-- `get_llm_response(pgd_data, user_info)`.  A provider failure is caught
inside and turned into `_fallback_response`. -/
def getLlmResponse (cfg : LLMConfig) (client : Bool) (sysPrompt : String)
    (pgd : List (String × BlockValue)) (u : UserInfo)
    (oracle : Nat → OutboundRequest → Except Unit String) : GenOutcome :=
  if client = false then
    { text := fallbackResponse u, degraded := true, attempts := 0, sleeps := [] }
  else
    let r := callProviderReport cfg sysPrompt (buildPgdText pgd u) oracle
    match r.1 with
    | .ok s => { text := cleanMarkdownStr s, degraded := false, attempts := r.2.1, sleeps := r.2.2 }
    | .error _ => { text := fallbackResponse u, degraded := true, attempts := r.2.1, sleeps := r.2.2 }

/-! ### Session rate limiter (`src/main.py`) -/

/-- One record of `_session_counters`. -/
structure SessionEntry where
  count : Nat
  last_seen : Int
deriving DecidableEq

/-- The in-memory session map. -/
def Store : Type := String → Option SessionEntry

/-- `MAX_QUESTIONS = 15`. -/
def MAX_QUESTIONS : Nat := 15

/-- `SESSION_TTL = 24 * 3600` seconds. -/
def SESSION_TTL : Int := 24 * 3600

/-- `_cleanup_sessions()`: drop every entry with `now - last_seen > TTL`. -/
def cleanupSessions (st : Store) (now : Int) : Store :=
  fun id =>
    match st id with
    | some e => if SESSION_TTL < now - e.last_seen then none else some e
    | none => none

/-- `_increment_session(session_id)`: create at 0 if absent, add one,
refresh `last_seen`, return the new count (paired with the new store). -/
def incrementSession (st : Store) (sid : String) (now : Int) : Nat × Store :=
  let entry := (st sid).getD { count := 0, last_seen := now }
  let e2 : SessionEntry := { count := entry.count + 1, last_seen := now }
  (e2.count, fun id => if id = sid then some e2 else st id)

/-- `_get_session_count(session_id)`: 0 for an unknown id, no mutation. -/
def getSessionCount (st : Store) (sid : String) : Nat :=
  match st sid with
  | some e => e.count
  | none => 0

/-- The fixed refusal text of the `/chat` limit branch. -/
def limitMessage : String :=
  "Достигнут лимит в " ++ toString MAX_QUESTIONS ++
  " вопросов для этой сессии. Чтобы продолжить, очистите историю чата или начните новую сессиию."

/-- Response of the `/chat` endpoint, as seen by the gateway caller. -/
inductive ChatResponse
  | unavailable
  | limitReached (reply : String) (questions_used limit : Nat)
  | answer (reply : String) (questions_used limit : Nat)
deriving DecidableEq

/-- `questions_used` field of a response, when present. -/
def ChatResponse.questionsUsedOf : ChatResponse → Option Nat
  | .limitReached _ n _ => some n
  | .answer _ n _ => some n
  | .unavailable => none

/-- Whether the response came from the successful-answer branch. -/
def ChatResponse.isAnswer : ChatResponse → Bool
  | .answer _ _ _ => true
  | _ => false

/-- The `/chat` endpoint: sweep, availability check, quota check against
`_get_session_count`, then increment and delegate to `chat_with_report`. -/
def chatEndpoint (cfg : LLMConfig) (st : Store) (now : Int) (sid : String)
    (llmOk : Bool) (context question : String)
    (oracle : OutboundRequest → Except Unit String) : ChatResponse × Store :=
  let st1 := cleanupSessions st now
  if llmOk = false then (.unavailable, st1)
  else if MAX_QUESTIONS ≤ getSessionCount st1 sid then
    (.limitReached limitMessage (getSessionCount st1 sid) MAX_QUESTIONS, st1)
  else
    let inc := incrementSession st1 sid now
    let rep := chatWithReport cfg true (stripStr context) (stripStr question) oracle
    (.answer (safeDisplayTextStr rep.1) inc.1 MAX_QUESTIONS, inc.2)

/-! ### Concrete fixtures used by witnesses and counterexamples -/

/-- An environment with no variables set. -/
def env0 : Env := ⟨none, none, none, none, none, none⟩

/-- A gemini configuration with all defaults (the repository default). -/
def cfg0 : LLMConfig := mkLLMConfig .gemini none none none env0

/-- A minimal user record. -/
def u0 : UserInfo := ⟨some "Анна", none, none⟩

/-- A store holding one session at the question limit. -/
def st0 : Store := fun id => if id = "s1" then some ⟨15, 0⟩ else none

/-- A store holding one expired session. -/
def stExpired : Store := fun id => if id = "s1" then some ⟨7, 0⟩ else none

/-- An oracle whose backend always fails. -/
def failOracle : OutboundRequest → Except Unit String := fun _ => .error ()

/-- An attempt-indexed oracle failing on the first attempt only. -/
def retryOracle : Nat → OutboundRequest → Except Unit String :=
  fun i _ => if i = 0 then .error () else .ok "ответ"

/-! ### Helper lemmas: session limiter -/

/-- Sweeping can only remove entries, never raise a count. -/
theorem cleanup_count_le (st : Store) (now : Int) (id : String) :
    getSessionCount (cleanupSessions st now) id ≤ getSessionCount st id := by
  unfold getSessionCount cleanupSessions
  cases h : st id with
  | none => simp [h]
  | some e =>
    simp only [h]
    by_cases htl : SESSION_TTL < now - e.last_seen <;> simp [htl]

/-- The count stored for `sid` is what `incrementSession` reads. -/
theorem getD_count (st : Store) (sid : String) (now : Int) :
    ((st sid).getD { count := 0, last_seen := now }).count = getSessionCount st sid := by
  cases h : st sid <;> simp [getSessionCount, h]

/-- C1: once the stored count for a session id has reached `MAX_QUESTIONS`
(15), a chat call returns the limit-reached response with the fixed refusal
message, `questions_used = 15` and `limit = 15`, and leaves the swept store
untouched (no increment); moreover a chat call never raises any stored
count above 15, so a count of 16 or more is never created. -/
theorem chat_quota_enforced :
    (∀ (cfg : LLMConfig) (st : Store) (now : Int) (sid context question : String)
        (orc : OutboundRequest → Except Unit String),
        getSessionCount (cleanupSessions st now) sid = MAX_QUESTIONS →
        chatEndpoint cfg st now sid true context question orc =
          (.limitReached limitMessage MAX_QUESTIONS MAX_QUESTIONS, cleanupSessions st now))
    ∧ (∀ (cfg : LLMConfig) (st : Store) (now : Int) (sid context question : String)
        (llmOk : Bool) (orc : OutboundRequest → Except Unit String) (id : String),
        (∀ j, getSessionCount st j ≤ MAX_QUESTIONS) →
        getSessionCount (chatEndpoint cfg st now sid llmOk context question orc).2 id
          ≤ MAX_QUESTIONS) := by
  constructor
  · intro cfg st now sid c q orc h
    simp [chatEndpoint, h]
  · intro cfg st now sid c q llmOk orc id hb
    have hclean : ∀ j, getSessionCount (cleanupSessions st now) j ≤ MAX_QUESTIONS :=
      fun j => le_trans (cleanup_count_le st now j) (hb j)
    cases llmOk with
    | false => simpa [chatEndpoint] using hclean id
    | true =>
      by_cases hlim : MAX_QUESTIONS ≤ getSessionCount (cleanupSessions st now) sid
      · simpa [chatEndpoint, hlim] using hclean id
      · have hstate : (chatEndpoint cfg st now sid true c q orc).2 =
            (incrementSession (cleanupSessions st now) sid now).2 := by
          simp [chatEndpoint, hlim]
        rw [hstate]
        by_cases hid : id = sid
        · subst hid
          have hcnt : getSessionCount (incrementSession (cleanupSessions st now) id now).2 id
              = getSessionCount (cleanupSessions st now) id + 1 := by
            cases h : cleanupSessions st now id <;>
              simp [incrementSession, getSessionCount, h]
          rw [hcnt]
          omega
        · have hcnt : getSessionCount (incrementSession (cleanupSessions st now) sid now).2 id
              = getSessionCount (cleanupSessions st now) id := by
            simp [incrementSession, getSessionCount, hid]
          rw [hcnt]
          exact hclean id

/-- C1 witness: a concrete store at the limit is refused with the fixed
message and left unchanged, and the bound is preserved. -/
theorem chat_quota_enforced_witness :
    (getSessionCount (cleanupSessions st0 100) "s1" = MAX_QUESTIONS
      ∧ chatEndpoint cfg0 st0 100 "s1" true "c" "q" failOracle =
          (.limitReached limitMessage MAX_QUESTIONS MAX_QUESTIONS, cleanupSessions st0 100))
    ∧ getSessionCount (chatEndpoint cfg0 st0 100 "s1" true "c" "q" failOracle).2 "s1"
        ≤ MAX_QUESTIONS := by
  have hb : ∀ j, getSessionCount st0 j ≤ MAX_QUESTIONS := by
    intro j
    by_cases h : j = "s1" <;> simp [getSessionCount, st0, h, MAX_QUESTIONS]
  exact ⟨⟨by decide, chat_quota_enforced.1 cfg0 st0 100 "s1" "c" "q" failOracle (by decide)⟩,
    chat_quota_enforced.2 cfg0 st0 100 "s1" "c" "q" true failOracle "s1" hb⟩

/-- C6: a record whose `last_seen` is older than the TTL is gone after the
sweep, and the next chat call for that id starts a fresh record: it reports
`questions_used = 1` from the answer branch and stores count 1. -/
theorem session_expiry_resets :
    ∀ (cfg : LLMConfig) (st : Store) (now : Int) (sid : String) (e : SessionEntry)
      (c q : String) (orc : OutboundRequest → Except Unit String),
      st sid = some e → SESSION_TTL < now - e.last_seen →
      cleanupSessions st now sid = none
      ∧ (chatEndpoint cfg st now sid true c q orc).1.questionsUsedOf = some 1
      ∧ (chatEndpoint cfg st now sid true c q orc).1.isAnswer = true
      ∧ (chatEndpoint cfg st now sid true c q orc).2 sid = some ⟨1, now⟩ := by
  intro cfg st now sid e c q orc hs httl
  have habsent : cleanupSessions st now sid = none := by
    simp [cleanupSessions, hs, httl]
  have hcount : getSessionCount (cleanupSessions st now) sid = 0 := by
    simp [getSessionCount, habsent]
  have hlim : ¬ MAX_QUESTIONS ≤ getSessionCount (cleanupSessions st now) sid := by
    simp [hcount, MAX_QUESTIONS]
  refine ⟨habsent, ?_, ?_, ?_⟩ <;>
    simp [chatEndpoint, hlim, incrementSession, habsent,
      ChatResponse.questionsUsedOf, ChatResponse.isAnswer]

/-- C6 witness: the expired store at a concrete time. -/
theorem session_expiry_resets_witness :
    stExpired "s1" = some ⟨7, 0⟩ ∧ SESSION_TTL < (100000 : Int) - 0
    ∧ (cleanupSessions stExpired 100000 "s1" = none
      ∧ (chatEndpoint cfg0 stExpired 100000 "s1" true "c" "q" failOracle).1.questionsUsedOf = some 1
      ∧ (chatEndpoint cfg0 stExpired 100000 "s1" true "c" "q" failOracle).1.isAnswer = true
      ∧ (chatEndpoint cfg0 stExpired 100000 "s1" true "c" "q" failOracle).2 "s1" = some ⟨1, 100000⟩) :=
  ⟨by decide, by decide,
    session_expiry_resets cfg0 stExpired 100000 "s1" ⟨7, 0⟩ "c" "q" failOracle
      (by decide) (by decide)⟩

/-- C7: `_increment_session` creates an absent record with count 1,
increments an existing count by exactly one, stamps `last_seen := now` in
both cases, and returns the new count. -/
theorem increment_session_spec :
    ∀ (st : Store) (sid : String) (now : Int),
      (st sid = none →
        (incrementSession st sid now).1 = 1
        ∧ (incrementSession st sid now).2 sid = some ⟨1, now⟩)
      ∧ (∀ e, st sid = some e →
        (incrementSession st sid now).1 = e.count + 1
        ∧ (incrementSession st sid now).2 sid = some ⟨e.count + 1, now⟩) := by
  intro st sid now
  constructor
  · intro h
    simp [incrementSession, h]
  · intro e h
    simp [incrementSession, h]

/-- C7 witness: both branches at concrete stores. -/
theorem increment_session_spec_witness :
    ((incrementSession (fun _ => none) "s1" 5).1 = 1
      ∧ (incrementSession (fun _ => none) "s1" 5).2 "s1" = some ⟨1, 5⟩)
    ∧ ((incrementSession st0 "s1" 7).1 = 16
      ∧ (incrementSession st0 "s1" 7).2 "s1" = some ⟨16, 7⟩) :=
  ⟨(increment_session_spec (fun _ => none) "s1" 5).1 rfl,
    (increment_session_spec st0 "s1" 7).2 ⟨15, 0⟩ (by decide)⟩

/-- C9: a chat call refused at the limit leaves the session record exactly
as it was — same count and same `last_seen` — so the record still expires
`SESSION_TTL` after its last successful increment, not after the refusal. -/
theorem refused_chat_preserves_session :
    ∀ (cfg : LLMConfig) (st : Store) (now : Int) (sid : String) (e : SessionEntry)
      (c q : String) (orc : OutboundRequest → Except Unit String),
      st sid = some e → now - e.last_seen ≤ SESSION_TTL → MAX_QUESTIONS ≤ e.count →
      (chatEndpoint cfg st now sid true c q orc).2 sid = some e
      ∧ ∀ now2 : Int, SESSION_TTL < now2 - e.last_seen →
          cleanupSessions (chatEndpoint cfg st now sid true c q orc).2 now2 sid = none := by
  intro cfg st now sid e c q orc hs hfresh hcnt
  have hkeep : cleanupSessions st now sid = some e := by
    simp [cleanupSessions, hs]
    omega
  have hlim : MAX_QUESTIONS ≤ getSessionCount (cleanupSessions st now) sid := by
    simpa [getSessionCount, hkeep] using hcnt
  have hstate : (chatEndpoint cfg st now sid true c q orc).2 = cleanupSessions st now := by
    simp [chatEndpoint, hlim]
  refine ⟨by rw [hstate]; exact hkeep, ?_⟩
  intro now2 h2
  rw [hstate]
  have hgen : ∀ st2 : Store, st2 sid = some e → cleanupSessions st2 now2 sid = none := by
    intro st2 h
    simp [cleanupSessions, h, h2]
  exact hgen (cleanupSessions st now) hkeep

/-- C9 witness: the limit-reached store is untouched by a refused call and
still expires by the original timestamp. -/
theorem refused_chat_preserves_session_witness :
    (chatEndpoint cfg0 st0 100 "s1" true "c" "q" failOracle).2 "s1" = some ⟨15, 0⟩
    ∧ cleanupSessions (chatEndpoint cfg0 st0 100 "s1" true "c" "q" failOracle).2 100000 "s1" = none :=
  ⟨(refused_chat_preserves_session cfg0 st0 100 "s1" ⟨15, 0⟩ "c" "q" failOracle
      (by decide) (by decide) (by decide)).1,
    (refused_chat_preserves_session cfg0 st0 100 "s1" ⟨15, 0⟩ "c" "q" failOracle
      (by decide) (by decide) (by decide)).2 100000 (by decide)⟩

/-! ### Helper lemmas: `safe_json_string` -/

/-- Characters of a single-character replacement come from the replacement
or from the original list. -/
theorem mem_replaceChar {c t : Char} {rep l : List Char} :
    c ∈ replaceChar t rep l → c ∈ rep ∨ c ∈ l := by
  induction l with
  | nil => simp [replaceChar]
  | cons a rest ih =>
    simp only [replaceChar, List.mem_append]
    intro h
    rcases h with h | h
    · split at h
      · exact Or.inl h
      · right
        simp at h
        simp [h]
    · rcases ih h with h1 | h1
      · exact Or.inl h1
      · exact Or.inr (List.mem_cons_of_mem a h1)

/-- C10 (amended): `safe_json_string` returns at most `max_len` characters,
none of which is an ASCII control character (codes 0x00–0x1F and
0x7F–0x9F, which includes CR and LF — newlines are removed by the
control-character filter, not rewritten), and returns the empty string for
`None` input. -/
theorem safe_json_string_spec :
    ∀ (t : Option (List Char)) (maxLen : Nat),
      (safeJsonString t maxLen).length ≤ maxLen
      ∧ ((safeJsonString t maxLen).all fun c => !isJsonControl c) = true
      ∧ safeJsonString none maxLen = [] := by
  intro t maxLen
  refine ⟨?_, ?_, rfl⟩
  · cases t with
    | none => simp [safeJsonString]
    | some l =>
      simp only [safeJsonString]
      exact List.length_take_le maxLen _
  · cases t with
    | none => simp [safeJsonString]
    | some l =>
      rw [List.all_eq_true]
      intro c hc
      simp only [safeJsonString] at hc
      have h5 := List.take_subset _ _ hc
      rcases mem_replaceChar h5 with h | h
      · simp at h
        rcases h with rfl | rfl <;> decide
      · rcases mem_replaceChar h with h | h
        · simp at h
        · rcases mem_replaceChar h with h | h
          · simp at h
            rcases h with rfl | rfl <;> decide
          · rcases mem_replaceChar h with h | h
            · simp at h
              rcases h with rfl | rfl <;> decide
            · exact (List.mem_filter.mp h).2

/-- C10 counterexample: on input `"a\nb"` the newline is deleted by the
control-character regex before the `\n → \\n` replace ever runs — the
output is `"ab"` and contains no `\\n` sequence, contradicting the claim
that newlines are rewritten to backslash-n. -/
theorem safe_json_removes_newlines :
    safeJsonString (some ['a', '\n', 'b']) 50000 = ['a', 'b']
    ∧ ¬ (['\\', 'n'] <:+: safeJsonString (some ['a', '\n', 'b']) 50000) := by
  decide

/-! ### Helper lemmas: provider requests -/

/-- The temperature argument is omitted whenever the flag is unset. -/
theorem maybeTemperatureArg_of_unsupported (cfg : LLMConfig)
    (h : cfg.supports_temperature = false) : cfg.maybeTemperatureArg = none := by
  simp [LLMConfig.maybeTemperatureArg, h]

/-- `LLMConfig.__init__` stores the provider it was given. -/
theorem mk_provider (p : Provider) (mn : Option String) (t : Option ℚ)
    (mt : Option Nat) (env : Env) : (mkLLMConfig p mn t mt env).provider = p := by
  cases p
  · simp only [mkLLMConfig]
    split <;> rfl
  all_goals rfl

/-- C8: `chat_with_report` truncates the report context to 15000 characters
before it is embedded in the request, sends the fixed conversational system
instruction (a different string from the hard-coded report instruction),
makes exactly one outbound attempt, and maps any provider failure to the
fixed apology string instead of raising. -/
theorem chat_single_attempt_policy :
    ∀ (cfg : LLMConfig) (rt q : String) (orc : OutboundRequest → Except Unit String),
      (chatWithReport cfg true rt q orc).2 = 1
      ∧ (takeChars rt 15000).length ≤ 15000
      ∧ usesSystemInstruction (chatRequest cfg (takeChars rt 15000) q) chatSystemPrompt
      ∧ chatSystemPrompt ≠ defaultSystemPrompt
      ∧ (orc (chatRequest cfg (takeChars rt 15000) q) = .error () →
          (chatWithReport cfg true rt q orc).1 =
            "Извините, возникла техническая сложность. Попробуйте задать вопрос иначе.") := by
  intro cfg rt q orc
  refine ⟨?_, ?_, ?_, ?_, ?_⟩
  · cases ho : orc (chatRequest cfg (takeChars rt 15000) q) <;>
      simp [chatWithReport, ho]
  · simp only [takeChars, String.length]
    exact List.length_take_le _ _
  · cases hp : cfg.provider
    case gemini =>
      simp only [chatRequest, hp, usesSystemInstruction]
      rw [List.isPrefixOf_iff_prefix]
      simp only [String.data_append, List.append_assoc]
      exact List.prefix_append _ _
    all_goals simp [chatRequest, hp, usesSystemInstruction]
  · decide
  · intro h
    simp [chatWithReport, h]

/-- C8 witness: a failed call at a concrete configuration makes one attempt
and yields the apology. -/
theorem chat_single_attempt_policy_witness :
    (chatWithReport cfg0 true "отчет" "вопрос" failOracle).2 = 1
    ∧ (chatWithReport cfg0 true "отчет" "вопрос" failOracle).1 =
        "Извините, возникла техническая сложность. Попробуйте задать вопрос иначе." :=
  ⟨(chat_single_attempt_policy cfg0 "отчет" "вопрос" failOracle).1,
    (chat_single_attempt_policy cfg0 "отчет" "вопрос" failOracle).2.2.2.2 rfl⟩

/-- C5 counterexample: the gemini follow-up chat call (`generate_content`
with no `generation_config`) carries no output-token bound, although the
report call of the same configuration does — refuting the claim that every
outbound completion call includes a maximum-output-token bound. -/
theorem gemini_chat_no_token_bound :
    (chatRequest cfg0 "контекст" "вопрос").maxTokens = none
    ∧ (reportRequest cfg0 defaultSystemPrompt "матрица").maxTokens = some 8000 := by
  exact ⟨rfl, rfl⟩

/-- C5 (amended): every outbound call built from an `LLMConfig` omits the
temperature parameter when `supports_temperature = false`, and every call
includes a maximum-output-token bound except the gemini chat call, which
sets neither a temperature nor a token bound. -/
theorem request_param_policy :
    ∀ (p : Provider) (mn : Option String) (t : Option ℚ) (mt : Option Nat) (env : Env)
      (sys txt c q : String),
      ((reportRequest (mkLLMConfig p mn t mt env) sys txt).maxTokens).isSome = true
      ∧ ((mkLLMConfig p mn t mt env).supports_temperature = false →
          (reportRequest (mkLLMConfig p mn t mt env) sys txt).temperature = none)
      ∧ (p ≠ .gemini →
          (chatRequest (mkLLMConfig p mn t mt env) c q).maxTokens = some 1000
          ∧ ((mkLLMConfig p mn t mt env).supports_temperature = false →
              (chatRequest (mkLLMConfig p mn t mt env) c q).temperature = none))
      ∧ (p = .gemini → (chatRequest (mkLLMConfig p mn t mt env) c q).maxTokens = none) := by
  intro p mn t mt env sys txt c q
  have hprov : (mkLLMConfig p mn t mt env).provider = p := mk_provider p mn t mt env
  cases p with
  | gemini =>
    have hsup : (mkLLMConfig .gemini mn t mt env).supports_temperature = true := rfl
    refine ⟨?_, ?_, ?_, ?_⟩
    · simp [reportRequest, hprov]
    · intro h
      rw [hsup] at h
      cases h
    · intro hne
      exact absurd rfl hne
    · intro _
      simp [chatRequest, hprov]
  | openai =>
    refine ⟨?_, ?_, ?_, ?_⟩
    · simp [reportRequest, hprov]
    · intro h
      simp [reportRequest, hprov, maybeTemperatureArg_of_unsupported _ h]
    · intro _
      refine ⟨by simp [chatRequest, hprov], ?_⟩
      intro h
      simp [chatRequest, hprov, maybeTemperatureArg_of_unsupported _ h]
    · intro h
      cases h
  | perplexity =>
    refine ⟨?_, ?_, ?_, ?_⟩
    · simp [reportRequest, hprov]
    · intro h
      simp [reportRequest, hprov, maybeTemperatureArg_of_unsupported _ h]
    · intro _
      refine ⟨by simp [chatRequest, hprov], ?_⟩
      intro h
      simp [chatRequest, hprov, maybeTemperatureArg_of_unsupported _ h]
    · intro h
      cases h
  | groq =>
    refine ⟨?_, ?_, ?_, ?_⟩
    · simp [reportRequest, hprov]
    · intro h
      simp [reportRequest, hprov, maybeTemperatureArg_of_unsupported _ h]
    · intro _
      refine ⟨by simp [chatRequest, hprov], ?_⟩
      intro h
      simp [chatRequest, hprov, maybeTemperatureArg_of_unsupported _ h]
    · intro h
      cases h

/-- An openai reasoning-model configuration (`supports_temperature = false`). -/
def cfgO1 : LLMConfig := mkLLMConfig .openai (some "o1-mini") none none env0

/-- C5 witness: for the `o1-mini` configuration, the temperature is omitted
from the report call and the chat call has the fixed 1000-token bound. -/
theorem request_param_policy_witness :
    (reportRequest cfgO1 "s" "t").temperature = none
    ∧ (chatRequest cfgO1 "c" "q").maxTokens = some 1000 :=
  ⟨(request_param_policy .openai (some "o1-mini") none none env0 "s" "t" "c" "q").2.1
      (by decide),
    ((request_param_policy .openai (some "o1-mini") none none env0 "s" "t" "c" "q").2.2.1
      (by decide)).1⟩

/-! ### Helper lemmas: report generation -/

/-- The openai retry loop either fails or returns the stripped text of some
successful attempt. -/
theorem openaiRetry_cases (oracle : Nat → OutboundRequest → Except Unit String)
    (req : OutboundRequest) :
    ∀ (n i : Nat), (openaiRetry oracle req i n).1 = .error ()
      ∨ ∃ j s, oracle j req = .ok s ∧ (openaiRetry oracle req i n).1 = .ok (stripStr s) := by
  intro n
  induction n with
  | zero => intro i; exact Or.inl rfl
  | succ n ih =>
    intro i
    cases ho : oracle i req with
    | ok s =>
      right
      exact ⟨i, s, ho, by simp [openaiRetry, ho]⟩
    | error e =>
      by_cases hn : n = 0
      · left
        simp [openaiRetry, ho, hn]
      · rcases ih (i + 1) with h | ⟨j, s, hj, h⟩
        · left
          simp [openaiRetry, ho, hn, h]
        · right
          exact ⟨j, s, hj, by simp [openaiRetry, ho, hn, h]⟩

/-- Any provider dispatch either fails or returns the stripped text of some
successful oracle call. -/
theorem callProviderReport_cases (cfg : LLMConfig) (sys pt : String)
    (oracle : Nat → OutboundRequest → Except Unit String) :
    (callProviderReport cfg sys pt oracle).1 = .error ()
    ∨ ∃ j s, oracle j (reportRequest cfg sys pt) = .ok s
        ∧ (callProviderReport cfg sys pt oracle).1 = .ok (stripStr s) := by
  cases hp : cfg.provider with
  | openai =>
    rcases openaiRetry_cases oracle (reportRequest cfg sys pt) 3 0 with h | ⟨j, s, hj, h⟩
    · left
      simp [callProviderReport, hp, h]
    · right
      exact ⟨j, s, hj, by simp [callProviderReport, hp, h]⟩
  | perplexity =>
    cases ho : oracle 0 (reportRequest cfg sys pt) with
    | ok s => exact Or.inr ⟨0, s, ho, by simp [callProviderReport, hp, ho]⟩
    | error e => exact Or.inl (by simp [callProviderReport, hp, ho])
  | gemini =>
    cases ho : oracle 0 (reportRequest cfg sys pt) with
    | ok s => exact Or.inr ⟨0, s, ho, by simp [callProviderReport, hp, ho]⟩
    | error e => exact Or.inl (by simp [callProviderReport, hp, ho])
  | groq =>
    cases ho : oracle 0 (reportRequest cfg sys pt) with
    | ok s => exact Or.inr ⟨0, s, ho, by simp [callProviderReport, hp, ho]⟩
    | error e => exact Or.inl (by simp [callProviderReport, hp, ho])

/-- C4 (amended): `get_llm_response` either returns the degraded local
fallback, or its text is exactly `_clean_markdown` applied to the stripped
text of a successful provider call.  The sanitizer removes matched markdown
constructs but does not guarantee absence of the characters `#`, `*`,
`` ` ``. -/
theorem report_degraded_or_sanitized :
    ∀ (cfg : LLMConfig) (client : Bool) (sys : String)
      (pgd : List (String × BlockValue)) (u : UserInfo)
      (oracle : Nat → OutboundRequest → Except Unit String),
      (getLlmResponse cfg client sys pgd u oracle).degraded = true
      ∨ ∃ j s, oracle j (reportRequest cfg sys (buildPgdText pgd u)) = .ok s
          ∧ (getLlmResponse cfg client sys pgd u oracle).text
              = cleanMarkdownStr (stripStr s) := by
  intro cfg client sys pgd u oracle
  cases client with
  | false => exact Or.inl rfl
  | true =>
    rcases callProviderReport_cases cfg sys (buildPgdText pgd u) oracle with h | ⟨j, s, hj, h⟩
    · left
      simp [getLlmResponse, h]
    · right
      exact ⟨j, s, hj, by simp [getLlmResponse, h]⟩

/-- C4 counterexample: a provider answer `"*a"` (an unpaired delimiter)
passes through `_clean_markdown` unchanged, so the non-degraded result
still contains the markup character `*`. -/
theorem report_text_keeps_delimiters :
    (getLlmResponse cfg0 true "S" [] u0 (fun _ _ => .ok "*a")).degraded = false
    ∧ '*' ∈ (getLlmResponse cfg0 true "S" [] u0 (fun _ _ => .ok "*a")).text.data := by
  decide

/-- C3 (amended): only the openai call path retries — up to 3 attempts with
a fixed 2-second sleep between consecutive attempts (none before the first,
none after the last), after which `get_llm_response` itself catches the
failure and returns the fixed local fallback text built from the user name
(no model text, not a payload summary); a first-attempt success makes one
attempt and never sleeps; every other provider makes exactly one attempt. -/
theorem report_retry_policy :
    ∀ (cfg : LLMConfig) (sys : String) (pgd : List (String × BlockValue)) (u : UserInfo)
      (oracle : Nat → OutboundRequest → Except Unit String),
      (cfg.provider = .openai →
        ((∀ i, oracle i (reportRequest cfg sys (buildPgdText pgd u)) = .error ()) →
          (getLlmResponse cfg true sys pgd u oracle).attempts = 3
          ∧ (getLlmResponse cfg true sys pgd u oracle).sleeps = [2, 2]
          ∧ (getLlmResponse cfg true sys pgd u oracle).degraded = true
          ∧ (getLlmResponse cfg true sys pgd u oracle).text = fallbackResponse u)
        ∧ (∀ s, oracle 0 (reportRequest cfg sys (buildPgdText pgd u)) = .ok s →
            (getLlmResponse cfg true sys pgd u oracle).attempts = 1
            ∧ (getLlmResponse cfg true sys pgd u oracle).sleeps = []))
      ∧ (cfg.provider ≠ .openai →
          (getLlmResponse cfg true sys pgd u oracle).attempts = 1
          ∧ (getLlmResponse cfg true sys pgd u oracle).sleeps = []) := by
  intro cfg sys pgd u oracle
  constructor
  · intro hp
    constructor
    · intro hfail
      have hrun : openaiRetry oracle (reportRequest cfg sys (buildPgdText pgd u)) 0 3
          = (.error (), 3, [2, 2]) := by
        simp [openaiRetry, hfail 0, hfail 1, hfail 2]
      simp [getLlmResponse, callProviderReport, hp, hrun]
    · intro s hs
      have hrun : openaiRetry oracle (reportRequest cfg sys (buildPgdText pgd u)) 0 3
          = (.ok (stripStr s), 1, []) := by
        simp [openaiRetry, hs]
      simp [getLlmResponse, callProviderReport, hp, hrun]
  · intro hp
    cases hprov : cfg.provider with
    | openai => exact absurd hprov hp
    | perplexity =>
      cases ho : oracle 0 (reportRequest cfg sys (buildPgdText pgd u)) <;>
        simp [getLlmResponse, callProviderReport, hprov, ho]
    | gemini =>
      cases ho : oracle 0 (reportRequest cfg sys (buildPgdText pgd u)) <;>
        simp [getLlmResponse, callProviderReport, hprov, ho]
    | groq =>
      cases ho : oracle 0 (reportRequest cfg sys (buildPgdText pgd u)) <;>
        simp [getLlmResponse, callProviderReport, hprov, ho]

/-- An openai configuration with all defaults (`gpt-4o`). -/
def cfg4o : LLMConfig := mkLLMConfig .openai none none none env0

/-- C3 witness: a concrete exhausted openai run makes 3 attempts with two
2-second sleeps and degrades, and a concrete first-attempt success makes a
single attempt. -/
theorem report_retry_policy_witness :
    ((getLlmResponse cfg4o true "S" [] u0 (fun _ _ => .error ())).attempts = 3
      ∧ (getLlmResponse cfg4o true "S" [] u0 (fun _ _ => .error ())).sleeps = [2, 2]
      ∧ (getLlmResponse cfg4o true "S" [] u0 (fun _ _ => .error ())).degraded = true
      ∧ (getLlmResponse cfg4o true "S" [] u0 (fun _ _ => .error ())).text = fallbackResponse u0)
    ∧ ((getLlmResponse cfg0 true "S" [] u0 (fun _ _ => .ok "текст")).attempts = 1
      ∧ (getLlmResponse cfg0 true "S" [] u0 (fun _ _ => .ok "текст")).sleeps = []) :=
  ⟨(report_retry_policy cfg4o "S" [] u0 (fun _ _ => .error ())).1 (by decide)
      |>.1 (fun _ => rfl),
    (report_retry_policy cfg0 "S" [] u0 (fun _ _ => .ok "текст")).2 (by decide)⟩

/-- C3 counterexample: with the default gemini provider a failing first
call is never retried — one attempt is made and the result degrades even
though a second attempt would have succeeded. -/
theorem gemini_no_retry :
    (getLlmResponse cfg0 true "S" [] u0 retryOracle).attempts = 1
    ∧ (getLlmResponse cfg0 true "S" [] u0 retryOracle).degraded = true
    ∧ retryOracle 1 (reportRequest cfg0 "S" (buildPgdText [] u0)) = .ok "ответ" :=
  ⟨by decide, by decide, rfl⟩

/-! ### Helper lemmas: the sanitizer on markup-free text -/

/-- The characters the sanitizer's markup rules react to. -/
def isMarkerChar (c : Char) : Bool :=
  c = '\\' || c = '#' || c = '*' || c = '`' || c = '-' || c = '•'

/-- Text containing none of the markup marker characters. -/
def markerFree (s : List Char) : Prop := ∀ c ∈ s, isMarkerChar c = false

instance markerFree_decidable (s : List Char) : Decidable (markerFree s) := by
  unfold markerFree
  infer_instance

theorem markerFree_spec {s : List Char} (h : markerFree s) :
    ∀ c ∈ s, c ≠ '\\' ∧ c ≠ '#' ∧ c ≠ '*' ∧ c ≠ '`' ∧ c ≠ '-' ∧ c ≠ '•' := by
  intro c hc
  have hx := h c hc
  simp [isMarkerChar] at hx
  exact ⟨hx.1.1.1.1.1, hx.1.1.1.1.2, hx.1.1.1.2, hx.1.1.2, hx.1.2, hx.2⟩

theorem unescapeNewlines_id : ∀ s : List Char, (∀ c ∈ s, c ≠ '\\') → unescapeNewlines s = s := by
  intro s
  induction s using unescapeNewlines.induct with
  | case1 => intro _; rfl
  | case2 c => intro _; rfl
  | case3 c1 c2 rest h ih =>
    intro hs
    exact absurd h.1 (hs c1 (by simp))
  | case4 c1 c2 rest h ih =>
    intro hs
    have hstep : unescapeNewlines (c1 :: c2 :: rest) = c1 :: unescapeNewlines (c2 :: rest) := by
      simp [unescapeNewlines, h]
    rw [hstep, ih (fun c hc => hs c (List.mem_cons_of_mem _ hc))]

theorem removeBackslashes_id : ∀ s : List Char, (∀ c ∈ s, c ≠ '\\') → removeBackslashes s = s := by
  intro s
  induction s with
  | nil => intro _; rfl
  | cons c rest ih =>
    intro hs
    have hc : c ≠ '\\' := hs c (by simp)
    simp [removeBackslashes, hc]
    exact ih (fun x hx => hs x (List.mem_cons_of_mem _ hx))

theorem tryHeading_none {c : Char} (rest : List Char) (hc : c ≠ '#') :
    tryHeading (c :: rest) = none := by
  simp [tryHeading, List.takeWhile_cons, hc]

theorem headingGoF_id : ∀ (f : Nat) (b : Bool) (s : List Char),
    (∀ c ∈ s, c ≠ '#') → headingGoF f b s = s := by
  intro f
  induction f with
  | zero => intro b s _; rfl
  | succ f ih =>
    intro b s hs
    cases s with
    | nil => rfl
    | cons c rest =>
      have hc : c ≠ '#' := hs c (by simp)
      have hrest : ∀ x ∈ rest, x ≠ '#' := fun x hx => hs x (List.mem_cons_of_mem _ hx)
      cases b with
      | true => simp [headingGoF, tryHeading_none rest hc, ih _ rest hrest]
      | false => simp [headingGoF, ih _ rest hrest]

theorem delimGoF_id (d : Char) (tl cl : List Char) :
    ∀ (f : Nat) (s : List Char), (∀ c ∈ s, c ≠ d) → delimGoF (d :: tl) cl f s = s := by
  intro f
  induction f with
  | zero => intro s _; rfl
  | succ f ih =>
    intro s hs
    cases s with
    | nil => rfl
    | cons c rest =>
      have hc : c ≠ d := hs c (by simp)
      have hpre : (d :: tl).isPrefixOf (c :: rest) = false := by
        simp [List.isPrefixOf_cons₂]
        intro h
        exact absurd h.symm hc
      simp [delimGoF, hpre, ih rest (fun x hx => hs x (List.mem_cons_of_mem _ hx))]

theorem tryBullet_none (s : List Char)
    (hs : ∀ c ∈ s, c ≠ '-' ∧ c ≠ '•' ∧ c ≠ '*') : tryBullet s = none := by
  simp only [tryBullet]
  split
  next b rest heq =>
    have hb : b ∈ s := by
      have hmem : b ∈ s.dropWhile (fun c => c = ' ' || c = '\t') := by
        rw [heq]
        exact List.mem_cons_self b rest
      exact (List.dropWhile_sublist _).subset hmem
    obtain ⟨h1, h2, h3⟩ := hs b hb
    simp [h1, h2, h3]
  next => rfl

theorem bulletGoF_id : ∀ (f : Nat) (b : Bool) (s : List Char),
    (∀ c ∈ s, c ≠ '-' ∧ c ≠ '•' ∧ c ≠ '*') → bulletGoF f b s = s := by
  intro f
  induction f with
  | zero => intro b s _; rfl
  | succ f ih =>
    intro b s hs
    cases s with
    | nil => rfl
    | cons c rest =>
      have hrest : ∀ x ∈ rest, x ≠ '-' ∧ x ≠ '•' ∧ x ≠ '*' :=
        fun x hx => hs x (List.mem_cons_of_mem _ hx)
      cases b with
      | true => simp [bulletGoF, tryBullet_none (c :: rest) hs, ih _ rest hrest]
      | false => simp [bulletGoF, ih _ rest hrest]

/-- Length of the leading newline run. -/
def leadNL (s : List Char) : Nat := (s.takeWhile (fun c => c = '\n')).length

theorem leadNL_cons (c : Char) (l : List Char) :
    leadNL (c :: l) = if c = '\n' then leadNL l + 1 else 0 := by
  by_cases h : c = '\n' <;> simp [leadNL, List.takeWhile_cons, h]

/-- No three consecutive newlines occur (the collapse rule cannot fire). -/
def noTriple (s : List Char) : Prop := ¬ (['\n', '\n', '\n'] <:+: s)

theorem replicate_nl_prefix (n : Nat) (l : List Char) :
    (List.replicate n '\n' <+: l) ↔ n ≤ leadNL l := by
  induction n generalizing l with
  | zero => simp
  | succ n ih =>
    cases l with
    | nil => simp [leadNL]
    | cons c t =>
      rw [List.replicate_succ, List.cons_prefix_cons, leadNL_cons]
      by_cases hc : c = '\n'
      · simp [hc, ih]
      · rw [if_neg hc]
        constructor
        · rintro ⟨he, _⟩
          exact absurd he.symm hc
        · intro h
          omega

theorem noTriple_cons (c : Char) (l : List Char) :
    noTriple (c :: l) ↔ leadNL (c :: l) ≤ 2 ∧ noTriple l := by
  unfold noTriple
  rw [List.infix_cons_iff, not_or]
  have hrep : (['\n', '\n', '\n'] : List Char) = List.replicate 3 '\n' := rfl
  rw [hrep, replicate_nl_prefix]
  constructor
  · rintro ⟨h1, h2⟩
    exact ⟨by omega, h2⟩
  · rintro ⟨h1, h2⟩
    exact ⟨by omega, h2⟩

theorem head_dropWhile {α : Type} (p : α → Bool) : ∀ (l : List α) (c : α),
    (l.dropWhile p).head? = some c → p c = false := by
  intro l
  induction l with
  | nil => simp
  | cons a t ih =>
    intro c h
    rw [List.dropWhile_cons] at h
    split at h
    · exact ih c h
    · simp at h
      next hpa => rw [← h]; simpa using hpa

theorem dropWhile_eq_self {α : Type} (p : α → Bool) (l : List α)
    (h : ∀ c, l.head? = some c → p c = false) : l.dropWhile p = l := by
  cases l with
  | nil => rfl
  | cons a t =>
    have := h a rfl
    simp [List.dropWhile_cons, this]

theorem leadNL_dropWhile_nl (l : List Char) :
    leadNL (l.dropWhile (fun x => x = '\n')) = 0 := by
  cases hd : l.dropWhile (fun x => x = '\n') with
  | nil => simp [leadNL]
  | cons y t =>
    have hy := head_dropWhile (fun x : Char => x = '\n') l y (by rw [hd]; rfl)
    have hy2 : y ≠ '\n' := by simpa using hy
    simp [leadNL, List.takeWhile_cons, hy2]

theorem collapse_spec : ∀ (f : Nat) (s : List Char), s.length ≤ f →
    noTriple (collapseGoF f s)
    ∧ leadNL (collapseGoF f s) = min (leadNL s) 2 := by
  intro f
  induction f with
  | zero =>
    intro s hs
    have hnil : s = [] := List.length_eq_zero.mp (Nat.le_zero.mp hs)
    subst hnil
    exact ⟨by simp [noTriple, collapseGoF], by simp [leadNL, collapseGoF]⟩
  | succ f ih =>
    intro s hs
    cases s with
    | nil => exact ⟨by simp [noTriple, collapseGoF], by simp [leadNL, collapseGoF]⟩
    | cons c rest =>
      have hr : rest.length ≤ f := by
        simpa using hs
      by_cases hcond : c = '\n' ∧ 2 ≤ (rest.takeWhile (fun x => x = '\n')).length
      · obtain ⟨hc, hlen⟩ := hcond
        subst hc
        have hrlen : (rest.dropWhile (fun x => x = '\n')).length ≤ f :=
          le_trans (List.dropWhile_sublist _).length_le hr
        obtain ⟨ihn, ihl⟩ := ih _ hrlen
        have hleadr : leadNL (rest.dropWhile (fun x => x = '\n')) = 0 := leadNL_dropWhile_nl rest
        have hleadc : leadNL (collapseGoF f (rest.dropWhile (fun x => x = '\n'))) = 0 := by
          rw [ihl, hleadr]
          simp
        have hstep : collapseGoF (f + 1) ('\n' :: rest)
            = '\n' :: '\n' :: collapseGoF f (rest.dropWhile (fun x => x = '\n')) := by
          simp [collapseGoF, hlen]
        constructor
        · rw [hstep, noTriple_cons, noTriple_cons]
          refine ⟨?_, ?_, ihn⟩
          · rw [leadNL_cons, leadNL_cons]
            simp [hleadc]
          · rw [leadNL_cons]
            simp [hleadc]
        · rw [hstep, leadNL_cons, leadNL_cons]
          have hlr : leadNL ('\n' :: rest) = leadNL rest + 1 := by
            rw [leadNL_cons]
            simp
          have h2 : 2 ≤ leadNL rest := hlen
          simp [hleadc, hlr]
          omega
      · obtain ⟨ihn, ihl⟩ := ih rest hr
        have hstep : collapseGoF (f + 1) (c :: rest) = c :: collapseGoF f rest := by
          simp [collapseGoF, hcond]
        constructor
        · rw [hstep, noTriple_cons]
          refine ⟨?_, ihn⟩
          rw [leadNL_cons]
          by_cases hc : c = '\n'
          · have hnot2 : ¬ 2 ≤ leadNL rest := fun hh => hcond ⟨hc, hh⟩
            simp [hc, ihl]
            omega
          · simp [hc]
        · rw [hstep, leadNL_cons, leadNL_cons, ihl]
          by_cases hc : c = '\n'
          · have hnot2 : ¬ 2 ≤ leadNL rest := fun hh => hcond ⟨hc, hh⟩
            simp [hc]
            omega
          · simp [hc]

theorem collapse_id : ∀ (f : Nat) (s : List Char), noTriple s → collapseGoF f s = s := by
  intro f
  induction f with
  | zero => intro s _; rfl
  | succ f ih =>
    intro s hn
    cases s with
    | nil => rfl
    | cons c rest =>
      rw [noTriple_cons] at hn
      obtain ⟨h1, h2⟩ := hn
      have hcond : ¬ (c = '\n' ∧ 2 ≤ (rest.takeWhile (fun x => x = '\n')).length) := by
        rintro ⟨hc, hlen⟩
        rw [leadNL_cons] at h1
        simp [hc] at h1
        have h2le : 2 ≤ leadNL rest := hlen
        omega
      simp [collapseGoF, hcond, ih rest h2]

theorem mem_collapse : ∀ (f : Nat) (s : List Char) (c : Char),
    c ∈ collapseGoF f s → c ∈ s ∨ c = '\n' := by
  intro f
  induction f with
  | zero => intro s c h; exact Or.inl h
  | succ f ih =>
    intro s c h
    cases s with
    | nil => simp [collapseGoF] at h
    | cons a rest =>
      by_cases hcond : a = '\n' ∧ 2 ≤ (rest.takeWhile (fun x => x = '\n')).length
      · have hstep : collapseGoF (f + 1) (a :: rest)
            = '\n' :: '\n' :: collapseGoF f (rest.dropWhile (fun x => x = '\n')) := by
          simp [collapseGoF, hcond.1, hcond.2]
        rw [hstep] at h
        rw [List.mem_cons, List.mem_cons] at h
        rcases h with h | h | h
        · exact Or.inr h
        · exact Or.inr h
        · rcases ih _ c h with h1 | h1
          · exact Or.inl (List.mem_cons_of_mem _ ((List.dropWhile_sublist _).subset h1))
          · exact Or.inr h1
      · have hstep : collapseGoF (f + 1) (a :: rest) = a :: collapseGoF f rest := by
          simp [collapseGoF, hcond]
        rw [hstep] at h
        rw [List.mem_cons] at h
        rcases h with h | h
        · exact Or.inl (by simp [h])
        · rcases ih _ c h with h1 | h1
          · exact Or.inl (List.mem_cons_of_mem _ h1)
          · exact Or.inr h1

theorem strip_within (s : List Char) : stripChars s <:+: s := by
  unfold stripChars
  have h1 : s.dropWhile isSpaceChar <:+ s := List.dropWhile_suffix _
  have h2 : (s.dropWhile isSpaceChar).reverse.dropWhile isSpaceChar <:+
      (s.dropWhile isSpaceChar).reverse := List.dropWhile_suffix _
  have h3 : ((s.dropWhile isSpaceChar).reverse.dropWhile isSpaceChar).reverse <+:
      s.dropWhile isSpaceChar := by
    rw [← List.reverse_suffix]
    simpa using h2
  exact h3.isInfix.trans h1.isInfix

theorem getLast?_of_suffix {l1 l2 : List Char} (h : l1 <:+ l2) (hne : l1 ≠ []) :
    l2.getLast? = l1.getLast? := by
  obtain ⟨t, rfl⟩ := h
  rw [List.getLast?_append]
  cases hgl : l1.getLast? with
  | none => exact absurd (List.getLast?_eq_none_iff.mp hgl) hne
  | some x => simp

theorem strip_idem (s : List Char) : stripChars (stripChars s) = stripChars s := by
  by_cases hnil : (s.dropWhile isSpaceChar).reverse.dropWhile isSpaceChar = []
  · unfold stripChars
    rw [hnil]
    rfl
  · unfold stripChars
    have hvhead : ∀ c, ((s.dropWhile isSpaceChar).reverse.dropWhile isSpaceChar).head? = some c →
        isSpaceChar c = false := fun c hc => head_dropWhile _ _ c hc
    have hlast : ((s.dropWhile isSpaceChar).reverse.dropWhile isSpaceChar).getLast?
        = (s.dropWhile isSpaceChar).reverse.getLast? :=
      (getLast?_of_suffix (List.dropWhile_suffix _) hnil).symm
    have hrevhead : ∀ c,
        (((s.dropWhile isSpaceChar).reverse.dropWhile isSpaceChar).reverse).head? = some c →
        isSpaceChar c = false := by
      intro c hc
      rw [List.head?_reverse, hlast, List.getLast?_reverse] at hc
      exact head_dropWhile _ _ c hc
    rw [dropWhile_eq_self _ _ hrevhead, List.reverse_reverse,
      dropWhile_eq_self _ _ hvhead]

theorem noTriple_of_infix {t s : List Char} (h : t <:+: s) (hn : noTriple s) : noTriple t :=
  fun hx => hn (hx.trans h)

theorem cleanMarkdown_eq_of_markerFree {s : List Char} (h : markerFree s) :
    cleanMarkdown s = stripChars (collapseGoF s.length s) := by
  have hspec := markerFree_spec h
  simp only [cleanMarkdown]
  rw [unescapeNewlines_id s (fun c hc => (hspec c hc).1),
    removeBackslashes_id s (fun c hc => (hspec c hc).1),
    headingGoF_id _ _ s (fun c hc => (hspec c hc).2.1),
    delimGoF_id '*' ['*'] ['*', '*'] _ s (fun c hc => (hspec c hc).2.2.1),
    delimGoF_id '*' [] ['*'] _ s (fun c hc => (hspec c hc).2.2.1),
    delimGoF_id '`' [] ['`'] _ s (fun c hc => (hspec c hc).2.2.2.1),
    bulletGoF_id _ _ s (fun c hc =>
      ⟨(hspec c hc).2.2.2.2.1, (hspec c hc).2.2.2.2.2, (hspec c hc).2.2.1⟩)]

theorem markerFree_clean {s : List Char} (h : markerFree s) :
    markerFree (cleanMarkdown s) := by
  rw [cleanMarkdown_eq_of_markerFree h]
  intro c hc
  have h1 : c ∈ collapseGoF s.length s := (strip_within _).sublist.subset hc
  rcases mem_collapse _ _ _ h1 with h2 | h2
  · exact h c h2
  · subst h2
    decide

/-- C2 (amended): `_clean_markdown` is idempotent on inputs containing no
markup marker characters (no backslash, `#`, `*`, `` ` ``, `-`, `•`); on
such inputs only the newline-collapse and the final strip act, and both are
stable under a second pass.  On general inputs idempotence fails (see the
counterexample): removing one bullet prefix can expose another. -/
theorem clean_idempotent_markerfree : ∀ s : List Char, markerFree s →
    cleanMarkdown (cleanMarkdown s) = cleanMarkdown s := by
  intro s h
  have hy := cleanMarkdown_eq_of_markerFree h
  have hymf : markerFree (cleanMarkdown s) := markerFree_clean h
  rw [cleanMarkdown_eq_of_markerFree hymf]
  have hnt : noTriple (collapseGoF s.length s) := (collapse_spec s.length s le_rfl).1
  have hynt : noTriple (cleanMarkdown s) := by
    rw [hy]
    exact noTriple_of_infix (strip_within _) hnt
  rw [collapse_id _ _ hynt, hy, strip_idem]

/-- C2 counterexample: `_clean_markdown("- - a") = "- a"` — the bullet rule
removes the first `"- "` and exposes a new bullet prefix, which a second
pass removes (`"a"`), so `clean (clean x) ≠ clean x` at `x = "- - a"`. -/
theorem clean_not_idempotent :
    cleanMarkdownStr (cleanMarkdownStr "- - a") ≠ cleanMarkdownStr "- - a" := by decide

/-- C2 witness: a concrete marker-free text on which the sanitizer is
idempotent. -/
theorem clean_idempotent_markerfree_witness :
    markerFree "привет\n\n\n\nмир".data
    ∧ cleanMarkdown (cleanMarkdown "привет\n\n\n\nмир".data)
        = cleanMarkdown "привет\n\n\n\nмир".data :=
  ⟨by decide, clean_idempotent_markerfree _ (by decide)⟩
